import Mathlib

/-!
Verification of the ebird_db archive-streaming and staged-load pipeline.
The definitions below are shallow embeddings of the Python sources under
src/: ebird_db/archive_readers.py, ebird_db/db/importers.py,
ebird_db/connection.py, ebird_db/cli.py and main.py.
-/

namespace EbirdDb

/-- Helper for `pyEndsWith`: is the first character list a prefix of the
second. -/
def charsPre : List Char → List Char → Bool
  | [], _ => true
  | _ :: _, [] => false
  | a :: as, b :: bs => decide (a = b) && charsPre as bs

/-- Python `str.endswith`: the suffix argument is a suffix of the string.
Modelled on character lists so that it evaluates inside the kernel. -/
def pyEndsWith (s suffix : String) : Bool :=
  charsPre suffix.data.reverse s.data.reverse

/-- Member-selection loop shared by TarMemberReader and ZipReader in
archive_readers.py: iterate over all container members, remembering the
most recent member whose name ends with the suffix. The loop has no
break, so when several members match, the last match is kept. -/
def findMemberLoop (names : List String) (suffix : String) : Option String :=
  names.foldl (fun found nm => if pyEndsWith nm suffix then some nm else found) none

/-- Constructor of TarMemberReader (archive_readers.py): after the member
loop, a missing match raises ValueError with the tar message; otherwise the
selected member is streamed. -/
def tarMemberReader_init (names : List String) (suffix : String) : Except String String :=
  match findMemberLoop names suffix with
  | none => Except.error ("No member with suffix " ++ suffix ++ " found in tar file")
  | some nm => Except.ok nm

/-- Constructor of ZipReader (archive_readers.py): same member loop, zip
error message. -/
def zipReader_init (names : List String) (suffix : String) : Except String String :=
  match findMemberLoop names suffix with
  | none => Except.error ("No member with suffix " ++ suffix ++ " found in zip file")
  | some nm => Except.ok nm

/-- Calendar date as produced by datetime.strptime with format %Y-%m-%d in
copy_observations_to_observations_table (db/importers.py). -/
structure Date where
  year : Nat
  month : Nat
  day : Nat
deriving DecidableEq, Repr

/-- Numeric key realizing the datetime comparison order on calendar dates. -/
def Date.toNat (d : Date) : Nat := d.year * 10000 + d.month * 100 + d.day

/-- One decoded observation record: the tab-separated columns consumed by
copy_observations_to_observations_table. A DictReader value is a string or
absent, hence Option String; the OBSERVATION DATE field is modelled already
parsed, with none standing for a missing or empty (falsy) field. -/
structure ObsRecord where
  globalUniqueIdentifier : Option String
  samplingEventIdentifier : Option String
  scientificName : Option String
  subspeciesScientificName : Option String
  exoticCode : Option String
  observationCount : Option String
  breedingCode : Option String
  breedingCategory : Option String
  behaviorCode : Option String
  ageSex : Option String
  speciesComments : Option String
  hasMedia : Option String
  approved : Option String
  reviewed : Option String
  reason : Option String
  stateCode : Option String
  observationDate : Option Date
deriving DecidableEq, Repr

/-- The tuple passed to copy.write_row for one loaded observation. -/
structure ObsRow where
  globalUniqueIdentifier : Option String
  samplingEventId : Option String
  speciesCode : String
  subSpeciesCode : Option String
  exoticCode : Option String
  observationCount : Option String
  breedingCode : Option String
  breedingCategory : Option String
  behaviorCode : Option String
  ageSex : Option String
  speciesComments : Option String
  hasMedia : Option String
  approved : Option String
  reviewed : Option String
  reason : Option String
deriving DecidableEq, Repr

/-- Per-record outcome of the loop body in
copy_observations_to_observations_table: one of the three continue sites or
a written row. -/
inductive RowOutcome where
  | skippedRegion : RowOutcome
  | skippedDate : RowOutcome
  | skippedSpecies : RowOutcome
  | added : ObsRow → RowOutcome
deriving DecidableEq, Repr

/-- The region-filter condition of the loop: a truthy state_code argument
whose value differs from the STATE CODE field. -/
def regionSkip (state_code : Option String) (lineState : Option String) : Bool :=
  match state_code with
  | none => false
  | some sc => if sc = "" then false else decide (lineState ≠ some sc)

/-- The condition obs_date < start_date of the date filter. -/
def beforeStart (start_date : Option Date) (d : Date) : Bool :=
  match start_date with
  | none => false
  | some s => decide (d.toNat < s.toNat)

/-- The condition obs_date > end_date of the date filter. -/
def afterEnd (end_date : Option Date) (d : Date) : Bool :=
  match end_date with
  | none => false
  | some e => decide (e.toNat < d.toNat)

/-- Sub-species handling: a truthy SUBSPECIES SCIENTIFIC NAME that resolves
in the species code map yields its code, otherwise the column is absent. -/
def subSpeciesResolve (m : List (String × String)) (v : Option String) : Option String :=
  match v with
  | none => none
  | some s => if s = "" then none else m.lookup s

/-- Species resolution and row construction: a SCIENTIFIC NAME missing from
the species code map skips the record (warn and count); otherwise the row is
built, normalizing the OBSERVATION COUNT sentinel X to absent. -/
def resolveAndBuild (m : List (String × String)) (line : ObsRecord) : RowOutcome :=
  match line.scientificName with
  | none => RowOutcome.skippedSpecies
  | some sci =>
      match m.lookup sci with
      | none => RowOutcome.skippedSpecies
      | some code =>
          RowOutcome.added {
            globalUniqueIdentifier := line.globalUniqueIdentifier
            samplingEventId := line.samplingEventIdentifier
            speciesCode := code
            subSpeciesCode := subSpeciesResolve m line.subspeciesScientificName
            exoticCode := line.exoticCode
            observationCount :=
              if line.observationCount = some "X" then none else line.observationCount
            breedingCode := line.breedingCode
            breedingCategory := line.breedingCategory
            behaviorCode := line.behaviorCode
            ageSex := line.ageSex
            speciesComments := line.speciesComments
            hasMedia := line.hasMedia
            approved := line.approved
            reviewed := line.reviewed
            reason := line.reason }

/-- Loop body of copy_observations_to_observations_table
(db/importers.py, lines 419-479): region filter first, then the date-range
filter (only when a bound is given and the date field is truthy), then
species resolution and row construction. -/
def processRecord (m : List (String × String)) (state_code : Option String)
    (start_date end_date : Option Date) (line : ObsRecord) : RowOutcome :=
  if regionSkip state_code line.stateCode then RowOutcome.skippedRegion
  else
    match line.observationDate with
    | some obs_date =>
        if start_date.isSome || end_date.isSome then
          if beforeStart start_date obs_date then RowOutcome.skippedDate
          else if afterEnd end_date obs_date then RowOutcome.skippedDate
          else resolveAndBuild m line
        else resolveAndBuild m line
    | none => resolveAndBuild m line

/-- End-of-stage state: loaded rows plus the num_added and num_skipped
counters. -/
structure StageResult where
  rows : List ObsRow
  num_added : Nat
  num_skipped : Nat
deriving DecidableEq, Repr

/-- One loop iteration: an added outcome appends the row and bumps
num_added, every skip outcome bumps num_skipped. -/
def copyObsStep (m : List (String × String)) (state_code : Option String)
    (start_date end_date : Option Date) (acc : StageResult) (line : ObsRecord) : StageResult :=
  match processRecord m state_code start_date end_date line with
  | RowOutcome.added row =>
      { rows := acc.rows ++ [row], num_added := acc.num_added + 1,
        num_skipped := acc.num_skipped }
  | _ =>
      { rows := acc.rows, num_added := acc.num_added,
        num_skipped := acc.num_skipped + 1 }

/-- The whole observation-loading loop over the record stream. -/
def copy_observations_to_observations_table (m : List (String × String))
    (state_code : Option String) (start_date end_date : Option Date)
    (input : List ObsRecord) : StageResult :=
  input.foldl (copyObsStep m state_code start_date end_date) ⟨[], 0, 0⟩

/-- Species resolution and row construction in the main.py variant of the
observation loop (main.py, lines 395-418): it asserts that the SCIENTIFIC
NAME is a key of the species code map and that the SUBSPECIES SCIENTIFIC
NAME field is not None, so either condition failing raises AssertionError
and aborts the stage; the sub-species code is then a plain dict get and the
X count sentinel is normalized as in the package variant. -/
def resolveAndBuildMain (m : List (String × String)) (line : ObsRecord) :
    Except String RowOutcome :=
  match line.scientificName with
  | none => Except.error "AssertionError: Species not found in species table"
  | some sci =>
      match m.lookup sci with
      | none => Except.error "AssertionError: Species not found in species table"
      | some code =>
          match line.subspeciesScientificName with
          | none =>
              Except.error "AssertionError: SUBSPECIES SCIENTIFIC NAME is None"
          | some sub =>
              Except.ok (RowOutcome.added {
                globalUniqueIdentifier := line.globalUniqueIdentifier
                samplingEventId := line.samplingEventIdentifier
                speciesCode := code
                subSpeciesCode := m.lookup sub
                exoticCode := line.exoticCode
                observationCount :=
                  if line.observationCount = some "X" then none
                  else line.observationCount
                breedingCode := line.breedingCode
                breedingCategory := line.breedingCategory
                behaviorCode := line.behaviorCode
                ageSex := line.ageSex
                speciesComments := line.speciesComments
                hasMedia := line.hasMedia
                approved := line.approved
                reviewed := line.reviewed
                reason := line.reason })

/-- Loop body of copy_observations_to_observations_table in the main.py
variant (main.py, lines 378-420): the same filter chain as the package
variant, but species resolution asserts instead of skipping. -/
def processRecordMain (m : List (String × String)) (state_code : Option String)
    (start_date end_date : Option Date) (line : ObsRecord) :
    Except String RowOutcome :=
  if regionSkip state_code line.stateCode then Except.ok RowOutcome.skippedRegion
  else
    match line.observationDate with
    | some obs_date =>
        if start_date.isSome || end_date.isSome then
          if beforeStart start_date obs_date then Except.ok RowOutcome.skippedDate
          else if afterEnd end_date obs_date then Except.ok RowOutcome.skippedDate
          else resolveAndBuildMain m line
        else resolveAndBuildMain m line
    | none => resolveAndBuildMain m line

/-- The main.py observation loop over the record stream: an AssertionError
aborts the stage, otherwise skips and added rows are accumulated as in the
package variant. -/
def copy_observations_main (m : List (String × String))
    (state_code : Option String) (start_date end_date : Option Date) :
    List ObsRecord → StageResult → Except String StageResult
  | [], acc => Except.ok acc
  | line :: rest, acc =>
      match processRecordMain m state_code start_date end_date line with
      | Except.error e => Except.error e
      | Except.ok (RowOutcome.added row) =>
          copy_observations_main m state_code start_date end_date rest
            { rows := acc.rows ++ [row], num_added := acc.num_added + 1,
              num_skipped := acc.num_skipped }
      | Except.ok _ =>
          copy_observations_main m state_code start_date end_date rest
            { rows := acc.rows, num_added := acc.num_added,
              num_skipped := acc.num_skipped + 1 }

/-- Species code map used by the concrete witnesses. -/
def demoMap : List (String × String) := [("Corvus brachyrhynchos", "amecro")]

/-- Observation record with every field absent; concrete witnesses override
the fields they exercise. -/
def blankRecord : ObsRecord :=
  { globalUniqueIdentifier := none, samplingEventIdentifier := none,
    scientificName := none, subspeciesScientificName := none,
    exoticCode := none, observationCount := none, breedingCode := none,
    breedingCategory := none, behaviorCode := none, ageSex := none,
    speciesComments := none, hasMedia := none, approved := none,
    reviewed := none, reason := none, stateCode := none,
    observationDate := none }

/-- Record from New Jersey, used against a New York region filter. -/
def lineNJ : ObsRecord := { blankRecord with stateCode := some "US-NJ" }

/-- Record dated 2019-12-31, before the 2020 date window. -/
def line2019 : ObsRecord :=
  { blankRecord with
    scientificName := some "Corvus brachyrhynchos"
    observationDate := some ⟨2019, 12, 31⟩ }

/-- Record dated 2021-01-01, after the 2020 date window. -/
def line2021 : ObsRecord :=
  { blankRecord with
    scientificName := some "Corvus brachyrhynchos"
    observationDate := some ⟨2021, 1, 1⟩ }

/-- Record dated 2020-06-15, inside the 2020 date window. -/
def line2020 : ObsRecord :=
  { blankRecord with
    scientificName := some "Corvus brachyrhynchos"
    observationDate := some ⟨2020, 6, 15⟩ }

/-- Record whose scientific name is not in the species code map. -/
def lineUnknown : ObsRecord :=
  { blankRecord with scientificName := some "Nosuchus birdus" }

/-- Record with a resolvable species and an unresolvable sub-species. -/
def lineSub : ObsRecord :=
  { blankRecord with
    scientificName := some "Corvus brachyrhynchos"
    subspeciesScientificName := some "Corvus unknownii" }

/-- Record with the X count sentinel. -/
def lineX : ObsRecord :=
  { blankRecord with
    scientificName := some "Corvus brachyrhynchos"
    observationCount := some "X" }

/-- The row loaded for lineSub. -/
def demoRowSub : ObsRow :=
  { globalUniqueIdentifier := none, samplingEventId := none,
    speciesCode := "amecro", subSpeciesCode := none, exoticCode := none,
    observationCount := none, breedingCode := none, breedingCategory := none,
    behaviorCode := none, ageSex := none, speciesComments := none,
    hasMedia := none, approved := none, reviewed := none, reason := none }

/-- The row loaded for lineX. -/
def demoRowX : ObsRow := demoRowSub

/-- One staged sampling row: the Locality plus Checklist columns copied into
tmp_sampling_table by copy_sampling_file_to_temp_table (db/importers.py).
Column values travel as text; loc_type stands for the type column. -/
structure StagingRow where
  locality_id : String
  name : String
  loc_type : String
  latitude : String
  longitude : String
  sampling_event_id : String
  last_edited_date : String
  country : String
  country_code : String
  state : String
  state_code : String
  county : String
  county_code : String
  iba_code : String
  bcr_code : String
  usfws_code : String
  atlas_block : String
  observation_date : String
  time_started : String
  observer_id : String
  protocol_type : String
  protocol_code : String
  project_code : String
  duration_minutes : String
  effort_distance_km : String
  effort_area_ha : String
  number_observers : String
  all_species_reported : String
  group_identifier : String
  trip_comments : String
deriving DecidableEq, Repr

/-- A localities row: the five columns selected by the localities INSERT. -/
structure LocalityRow where
  locality_id : String
  name : String
  loc_type : String
  latitude : String
  longitude : String
deriving DecidableEq, Repr

/-- A checklists row: the twenty-six columns selected by the checklists
INSERT. -/
structure ChecklistRow where
  sampling_event_id : String
  last_edited_date : String
  country : String
  country_code : String
  state : String
  state_code : String
  county : String
  county_code : String
  iba_code : String
  bcr_code : String
  usfws_code : String
  atlas_block : String
  observation_date : String
  time_started : String
  observer_id : String
  protocol_type : String
  protocol_code : String
  project_code : String
  duration_minutes : String
  effort_distance_km : String
  effort_area_ha : String
  number_observers : String
  all_species_reported : String
  group_identifier : String
  trip_comments : String
  locality_id : String
deriving DecidableEq, Repr

/-- The column list of the localities INSERT ... SELECT. -/
def localityProjection (s : StagingRow) : LocalityRow :=
  { locality_id := s.locality_id, name := s.name, loc_type := s.loc_type,
    latitude := s.latitude, longitude := s.longitude }

/-- The column list of the checklists INSERT ... SELECT. -/
def checklistProjection (s : StagingRow) : ChecklistRow :=
  { sampling_event_id := s.sampling_event_id,
    last_edited_date := s.last_edited_date, country := s.country,
    country_code := s.country_code, state := s.state,
    state_code := s.state_code, county := s.county,
    county_code := s.county_code, iba_code := s.iba_code,
    bcr_code := s.bcr_code, usfws_code := s.usfws_code,
    atlas_block := s.atlas_block, observation_date := s.observation_date,
    time_started := s.time_started, observer_id := s.observer_id,
    protocol_type := s.protocol_type, protocol_code := s.protocol_code,
    project_code := s.project_code, duration_minutes := s.duration_minutes,
    effort_distance_km := s.effort_distance_km,
    effort_area_ha := s.effort_area_ha,
    number_observers := s.number_observers,
    all_species_reported := s.all_species_reported,
    group_identifier := s.group_identifier,
    trip_comments := s.trip_comments, locality_id := s.locality_id }

/-- INSERT ... ON CONFLICT (key) DO NOTHING over a list-modelled table:
append each incoming row whose key is not already present, in scan order; a
row conflicting with the table, or with a row inserted earlier in the same
statement, is dropped silently. -/
def insertIfKeyAbsent {α : Type} (key : α → String) : List α → List α → List α
  | table, [] => table
  | table, r :: rest =>
      if table.any (fun x => decide (key x = key r)) then
        insertIfKeyAbsent key table rest
      else insertIfKeyAbsent key (table ++ [r]) rest

/-- SELECT DISTINCT ON (key): keep one row per key, the first in scan
order. -/
def distinctOn {α : Type} (key : α → String) (rows : List α) : List α :=
  insertIfKeyAbsent key [] rows

/-- create_and_fill_locality_table (db/importers.py): INSERT INTO localities
SELECT DISTINCT ON (locality_id) locality_id, name, type, latitude,
longitude FROM tmp_sampling_table ON CONFLICT (locality_id) DO NOTHING. -/
def create_and_fill_locality_table (localities : List LocalityRow)
    (staging : List StagingRow) : List LocalityRow :=
  insertIfKeyAbsent (fun r => r.locality_id) localities
    ((distinctOn (fun s => s.locality_id) staging).map localityProjection)

/-- create_and_fill_checklist_table (db/importers.py): the same INSERT
pattern keyed by sampling_event_id over the twenty-six checklist columns. -/
def create_and_fill_checklist_table (checklists : List ChecklistRow)
    (staging : List StagingRow) : List ChecklistRow :=
  insertIfKeyAbsent (fun r => r.sampling_event_id) checklists
    ((distinctOn (fun s => s.sampling_event_id) staging).map checklistProjection)

/-- Byte accounting of the lines generators of TarMemberReader and ZipReader
(archive_readers.py): after each yielded record, last_bytes_read is set to
member_file.tell() minus current_offset, and current_offset advances to the
new tell position. Given the starting offset and the stream of tell values
observed after each record, this returns the successive last_bytes_read
values. -/
def progressDeltas : Int → List Int → List Int
  | _, [] => []
  | cur, t :: ts => (t - cur) :: progressDeltas t ts

/-- Open operating-system handles held when a reader constructor returns or
raises: the container handle opened by get_archive_member_reader and one
extracted member handle per matching member. -/
structure HandleState where
  containerOpen : Bool
  memberHandles : Nat
deriving DecidableEq, Repr

/-- TarMemberReader construction together with its handle effects: the
container is already open, the member loop extracts one handle per matching
member, and no path of the constructor or of get_archive_member_reader
closes anything before the ValueError is raised. -/
def tarMemberReader_initHandles (names : List String) (suffix : String) :
    Except String String × HandleState :=
  (tarMemberReader_init names suffix,
   { containerOpen := true,
     memberHandles := (names.filter (fun nm => pyEndsWith nm suffix)).length })

/-- ZipReader construction with its handle effects, as for the tar reader. -/
def zipReader_initHandles (names : List String) (suffix : String) :
    Except String String × HandleState :=
  (zipReader_init names suffix,
   { containerOpen := true,
     memberHandles := (names.filter (fun nm => pyEndsWith nm suffix)).length })

/-- Dict key membership, the test used by the fill-in loop of
create_and_fill_species_table. A species record is the list of present JSON
keys with their values; a value of none is JSON null. -/
def hasKey (r : List (String × Option String)) (k : String) : Bool :=
  (r.lookup k).isSome

/-- One step of the fill-in loop: set the key to null when it is missing. -/
def fillKey (r : List (String × Option String)) (k : String) :
    List (String × Option String) :=
  if hasKey r k then r else r ++ [(k, none)]

/-- The fill-in loop of create_and_fill_species_table (db/importers.py,
lines 255-264): exactly order, familyCode, familyComName and familySciName
are defaulted to null when missing. -/
def fillMissingKeys (r : List (String × Option String)) :
    List (String × Option String) :=
  fillKey (fillKey (fillKey (fillKey r "order") "familyCode") "familyComName")
    "familySciName"

/-- The named parameters of the species INSERT, in order. -/
def insertParamKeys : List String :=
  ["speciesCode", "comName", "sciName", "category", "taxonOrder",
   "bandingCodes", "comNameCodes", "sciNameCodes", "order", "familyCode",
   "familyComName", "familySciName"]

/-- Named-parameter binding performed by executemany for one record: each
placeholder key is looked up in the record dict and a missing key is an
error that fails the insert. -/
def bindParams (r : List (String × Option String)) :
    List String → Except String (List (Option String))
  | [] => Except.ok []
  | k :: ks =>
      match r.lookup k with
      | none => Except.error ("query parameter missing: " ++ k)
      | some v =>
          match bindParams r ks with
          | Except.error e => Except.error e
          | Except.ok vs => Except.ok (v :: vs)

/-- Binding of the species INSERT parameters against a record that went
through the fill-in loop. -/
def bindInsertParams (r : List (String × Option String)) :
    Except String (List (Option String)) :=
  bindParams r insertParamKeys

/-- Species record carrying only the two required fields. -/
def bareSpeciesRecord : List (String × Option String) :=
  [("speciesCode", some "amecro"), ("sciName", some "Corvus brachyrhynchos")]

/-- Species record carrying the required fields and the six optional fields
that the fill-in loop never defaults, but none of the four family fields. -/
def richSpeciesRecord : List (String × Option String) :=
  [("speciesCode", some "amecro"), ("comName", some "American Crow"),
   ("sciName", some "Corvus brachyrhynchos"), ("category", some "species"),
   ("taxonOrder", some "21284"), ("bandingCodes", some "AMCR"),
   ("comNameCodes", some ""), ("sciNameCodes", some "COBR")]

/-- The staging table name. -/
def TMP_SAMPLING_TABLE : String := "tmp_sampling_table"

/-- The drop_sampling stage of main.py (main, lines 462-465): a plain DROP
TABLE tmp_sampling_table, which is an UndefinedTable error when the table
does not exist. Storage is modelled as the list of existing table names. -/
def mainDropSampling (tables : List String) : Except String (List String) :=
  if TMP_SAMPLING_TABLE ∈ tables then
    Except.ok (tables.erase TMP_SAMPLING_TABLE)
  else Except.error "UndefinedTable: tmp_sampling_table"

/-- The drop stage of the interactive pipeline (ebird_db/cli.py,
interactive_setup): DROP TABLE IF EXISTS tmp_sampling_table, which always
succeeds. -/
def cliDropSampling (tables : List String) : Except String (List String) :=
  Except.ok (tables.erase TMP_SAMPLING_TABLE)

/-- Python whitespace characters recognized by str.isspace: the ASCII
whitespace 09-0D and 20, the separators 1C-1F, next line 85, no-break space
A0, and the Unicode space characters 1680, 2000-200A, 2028, 2029, 202F,
205F and 3000. -/
def pyIsSpaceChar (c : Char) : Bool :=
  (decide (0x9 ≤ c.toNat) && decide (c.toNat ≤ 0xd)) ||
  (decide (0x1c ≤ c.toNat) && decide (c.toNat ≤ 0x1f)) ||
  c.toNat == 0x20 || c.toNat == 0x85 || c.toNat == 0xa0 ||
  c.toNat == 0x1680 ||
  (decide (0x2000 ≤ c.toNat) && decide (c.toNat ≤ 0x200a)) ||
  c.toNat == 0x2028 || c.toNat == 0x2029 || c.toNat == 0x202f ||
  c.toNat == 0x205f || c.toNat == 0x3000

/-- Python str.isspace: nonempty and all characters whitespace. -/
def pyStrIsSpace (s : String) : Bool :=
  (!(s == "")) && s.data.all pyIsSpaceChar

/-- NullStrDumper.dump (ebird_db/connection.py and main.py): an empty or
whitespace-only string is dumped as NULL, any other string is passed to the
default string dumper unchanged. -/
def NullStrDumper_dump (s : String) : Option String :=
  if s == "" || pyStrIsSpace s then none else some s

/-- The storage connection as the loader sees it: the dumper applied to
every string value sent through the connection. -/
structure Connection where
  dumpStr : String → Option String

/-- open_connection (ebird_db/connection.py): psycopg connect followed by
registration of NullStrDumper for str values. -/
def open_connection : Connection :=
  { dumpStr := NullStrDumper_dump }

/-- The five writing stages of the loader. -/
inductive Stage where
  | copy_sampling : Stage
  | localities : Stage
  | checklists : Stage
  | species : Stage
  | observations : Stage
deriving DecidableEq, Repr

/-- Every writing stage of db/importers.py opens its storage connection
through open_connection. -/
def stageConnection : Stage → Connection := fun _ => open_connection

theorem cons_getLast?_isSome {α : Type} (a : α) (l : List α) :
    ((a :: l).getLast?).isSome := by
  induction l generalizing a with
  | nil => rfl
  | cons b t ih => rw [List.getLast?_cons_cons]; exact ih b

theorem getLast?_cons_or {α : Type} (a : α) (l : List α) :
    (a :: l).getLast? = l.getLast?.or (some a) := by
  cases l with
  | nil => rfl
  | cons b t =>
      rw [List.getLast?_cons_cons]
      obtain ⟨x, hx⟩ := Option.isSome_iff_exists.mp (cons_getLast?_isSome b t)
      rw [hx]
      rfl

theorem mem_of_getLast?_eq {α : Type} {l : List α} {a : α} :
    l.getLast? = some a → a ∈ l := by
  induction l with
  | nil => intro h; cases h
  | cons b t ih =>
      intro h
      cases t with
      | nil =>
          have hb : a = b := by
            have hb2 : (b :: ([] : List α)).getLast? = some b := rfl
            rw [hb2] at h
            exact (Option.some.inj h).symm
          rw [hb]
          exact List.mem_singleton_self b
      | cons c u =>
          rw [List.getLast?_cons_cons] at h
          exact List.mem_cons_of_mem b (ih h)

theorem findMemberLoop_foldl_aux (suffix : String) :
    ∀ (names : List String) (acc : Option String),
      names.foldl (fun found nm => if pyEndsWith nm suffix then some nm else found) acc
        = ((names.filter (fun nm => pyEndsWith nm suffix)).getLast?).or acc := by
  intro names
  induction names with
  | nil => intro acc; simp
  | cons nm rest ih =>
      intro acc
      by_cases h : pyEndsWith nm suffix = true
      · simp only [List.foldl_cons, List.filter_cons, h, if_pos]
        rw [ih (some nm), getLast?_cons_or, Option.or_assoc]
        rfl
      · have h' : pyEndsWith nm suffix = false := by
          cases hx : pyEndsWith nm suffix
          · rfl
          · exact absurd hx h
        simp only [List.foldl_cons, List.filter_cons, h', if_neg, Bool.false_eq_true,
          not_false_iff]
        exact ih acc

theorem findMemberLoop_eq (names : List String) (suffix : String) :
    findMemberLoop names suffix
      = (names.filter (fun nm => pyEndsWith nm suffix)).getLast? := by
  unfold findMemberLoop
  rw [findMemberLoop_foldl_aux]
  cases (names.filter (fun nm => pyEndsWith nm suffix)).getLast? <;> rfl

/-- C2: when no container member name ends with the target suffix, both the
tar and the zip reader constructors fail with the MemberNotFound ValueError;
when at least one member matches, construction succeeds and both readers
deterministically select the same single member, namely the last match in
container order. -/
theorem c2_member_selection (names : List String) (suffix : String) :
    ((∀ nm ∈ names, pyEndsWith nm suffix = false) →
        (tarMemberReader_init names suffix).isOk = false ∧
        (zipReader_init names suffix).isOk = false) ∧
    (∀ nm0 ∈ names, pyEndsWith nm0 suffix = true →
        ∃ w, tarMemberReader_init names suffix = Except.ok w ∧
          zipReader_init names suffix = Except.ok w ∧
          w ∈ names ∧ pyEndsWith w suffix = true ∧
          (names.filter (fun nm => pyEndsWith nm suffix)).getLast? = some w) := by
  constructor
  · intro h
    have hfil : names.filter (fun nm => pyEndsWith nm suffix) = [] := by
      rw [List.filter_eq_nil_iff]
      intro a ha
      simp [h a ha]
    have hloop : findMemberLoop names suffix = none := by
      rw [findMemberLoop_eq, hfil]
      rfl
    constructor
    · unfold tarMemberReader_init
      rw [hloop]
      rfl
    · unfold zipReader_init
      rw [hloop]
      rfl
  · intro nm0 hmem hsuf
    have hmemf : nm0 ∈ names.filter (fun nm => pyEndsWith nm suffix) := by
      rw [List.mem_filter]
      exact ⟨hmem, hsuf⟩
    obtain ⟨w, hw⟩ : ∃ w, (names.filter (fun nm => pyEndsWith nm suffix)).getLast? = some w := by
      cases hfil : names.filter (fun nm => pyEndsWith nm suffix) with
      | nil => rw [hfil] at hmemf; cases hmemf
      | cons a t =>
          exact Option.isSome_iff_exists.mp (cons_getLast?_isSome a t)
    have hwin : w ∈ names.filter (fun nm => pyEndsWith nm suffix) := mem_of_getLast?_eq hw
    rw [List.mem_filter] at hwin
    refine ⟨w, ?_, ?_, hwin.1, hwin.2, hw⟩
    · unfold tarMemberReader_init
      rw [findMemberLoop_eq, hw]
    · unfold zipReader_init
      rw [findMemberLoop_eq, hw]

/-- Witness for C2 at concrete archives: a container with no matching member
fails construction, and a container with two matching members selects the
last one in both readers. -/
theorem c2_member_selection_witness :
    (tarMemberReader_init ["data.txt"] "_sampling.txt.gz").isOk = false ∧
    tarMemberReader_init ["a_sampling.txt.gz", "obs.txt", "b_sampling.txt.gz"]
        "_sampling.txt.gz" = Except.ok "b_sampling.txt.gz" ∧
    zipReader_init ["a_sampling.txt.gz", "obs.txt", "b_sampling.txt.gz"]
        "_sampling.txt.gz" = Except.ok "b_sampling.txt.gz" := by
  obtain ⟨w, h1, h2, _, _, h5⟩ :=
    (c2_member_selection ["a_sampling.txt.gz", "obs.txt", "b_sampling.txt.gz"]
      "_sampling.txt.gz").2 "a_sampling.txt.gz" (by decide) (by decide)
  have hfil : (["a_sampling.txt.gz", "obs.txt", "b_sampling.txt.gz"].filter
      (fun nm => pyEndsWith nm "_sampling.txt.gz")).getLast?
        = some "b_sampling.txt.gz" := by decide
  rw [hfil] at h5
  have hw : w = "b_sampling.txt.gz" := (Option.some.inj h5.symm)
  subst hw
  exact ⟨((c2_member_selection ["data.txt"] "_sampling.txt.gz").1 (by decide)).1, h1, h2⟩

theorem resolveAndBuild_not_filter_skip (m : List (String × String)) (line : ObsRecord) :
    resolveAndBuild m line ≠ RowOutcome.skippedDate ∧
    resolveAndBuild m line ≠ RowOutcome.skippedRegion := by
  cases hs : line.scientificName with
  | none => simp [resolveAndBuild, hs]
  | some sci =>
      cases hc : m.lookup sci with
      | none => simp [resolveAndBuild, hs, hc]
      | some code => simp [resolveAndBuild, hs, hc]

theorem beforeStart_eq_false_iff (sd : Option Date) (d : Date) :
    beforeStart sd d = false ↔ ∀ s, sd = some s → s.toNat ≤ d.toNat := by
  cases sd with
  | none => simp [beforeStart]
  | some s => simp [beforeStart, Nat.not_lt]

theorem afterEnd_eq_false_iff (ed : Option Date) (d : Date) :
    afterEnd ed d = false ↔ ∀ e, ed = some e → d.toNat ≤ e.toNat := by
  cases ed with
  | none => simp [afterEnd]
  | some e => simp [afterEnd, Nat.not_lt]

theorem processRecord_passes (m : List (String × String)) (state_code : Option String)
    (start_date end_date : Option Date) (line : ObsRecord)
    (hreg : regionSkip state_code line.stateCode = false)
    (hdate : ∀ d, line.observationDate = some d →
        beforeStart start_date d = false ∧ afterEnd end_date d = false) :
    processRecord m state_code start_date end_date line = resolveAndBuild m line := by
  unfold processRecord
  rw [hreg]
  simp only [Bool.false_eq_true, if_false]
  cases hod : line.observationDate with
  | none => rfl
  | some d =>
      obtain ⟨h1, h2⟩ := hdate d hod
      by_cases hb : (start_date.isSome || end_date.isSome) = true
      · simp [hb, h1, h2]
      · simp [hb]

/-- C1: in the observations stage the row filters run in a fixed order before
species resolution. A given state code that differs from the STATE CODE field
skips the record regardless of its date and of the species map; the date
filter applies only when a bound is given and the date field is present, and
then skips exactly the records outside the inclusive start..end window; with
no bound or no date field a record is never date-skipped; and a record
skipped by either filter has an outcome independent of the species code map,
so it is never looked up there. -/
theorem c1_observation_row_filters (m m2 : List (String × String))
    (state_code : Option String) (start_date end_date : Option Date) (line : ObsRecord) :
    (∀ sc, state_code = some sc → sc ≠ "" → line.stateCode ≠ some sc →
        processRecord m state_code start_date end_date line = RowOutcome.skippedRegion) ∧
    (regionSkip state_code line.stateCode = false →
      ∀ d, line.observationDate = some d → (start_date.isSome || end_date.isSome) = true →
        (processRecord m state_code start_date end_date line = RowOutcome.skippedDate ↔
          ¬ ((∀ s, start_date = some s → s.toNat ≤ d.toNat) ∧
             (∀ e, end_date = some e → d.toNat ≤ e.toNat)))) ∧
    (regionSkip state_code line.stateCode = false →
      ((start_date.isSome || end_date.isSome) = false ∨ line.observationDate = none) →
        processRecord m state_code start_date end_date line ≠ RowOutcome.skippedDate) ∧
    ((processRecord m state_code start_date end_date line = RowOutcome.skippedRegion ∨
      processRecord m state_code start_date end_date line = RowOutcome.skippedDate) →
        processRecord m2 state_code start_date end_date line
          = processRecord m state_code start_date end_date line) := by
  refine ⟨?_, ?_, ?_, ?_⟩
  · intro sc hsc hne hstate
    subst hsc
    unfold processRecord regionSkip
    simp [hne, hstate]
  · intro hreg d hd hb
    unfold processRecord
    rw [hreg, hd]
    simp only [Bool.false_eq_true, if_false, hb, if_true]
    have hchain : ((if beforeStart start_date d then RowOutcome.skippedDate
        else if afterEnd end_date d then RowOutcome.skippedDate
        else resolveAndBuild m line) = RowOutcome.skippedDate) ↔
        (beforeStart start_date d = true ∨ afterEnd end_date d = true) := by
      by_cases h1 : beforeStart start_date d = true
      · simp [h1]
      · by_cases h2 : afterEnd end_date d = true
        · simp [h1, h2]
        · simp [h1, h2, (resolveAndBuild_not_filter_skip m line).1]
    rw [hchain]
    rw [← beforeStart_eq_false_iff start_date d, ← afterEnd_eq_false_iff end_date d]
    cases hx : beforeStart start_date d <;> cases hy : afterEnd end_date d <;> simp
  · intro hreg hcase
    have hres : processRecord m state_code start_date end_date line
        = resolveAndBuild m line := by
      unfold processRecord
      rw [hreg]
      simp only [Bool.false_eq_true, if_false]
      rcases hcase with hb | hd
      · cases hod : line.observationDate with
        | none => rfl
        | some d => simp [hb]
      · rw [hd]
    rw [hres]
    exact (resolveAndBuild_not_filter_skip m line).1
  · intro hskip
    unfold processRecord at hskip ⊢
    by_cases hreg : regionSkip state_code line.stateCode = true
    · simp [hreg]
    · have hreg' : regionSkip state_code line.stateCode = false := by
        cases hx : regionSkip state_code line.stateCode
        · rfl
        · exact absurd hx hreg
      rw [hreg'] at hskip ⊢
      simp only [Bool.false_eq_true, if_false] at hskip ⊢
      cases hod : line.observationDate with
      | none =>
          rw [hod] at hskip
          rcases hskip with h | h
          · exact absurd h (resolveAndBuild_not_filter_skip m line).2
          · exact absurd h (resolveAndBuild_not_filter_skip m line).1
      | some d =>
          rw [hod] at hskip
          by_cases hb : (start_date.isSome || end_date.isSome) = true
          · rw [hb] at hskip
            simp only [if_true] at hskip
            by_cases h1 : beforeStart start_date d = true
            · simp [hb, h1]
            · have h1' : beforeStart start_date d = false := by
                cases hx : beforeStart start_date d
                · rfl
                · exact absurd hx h1
              rw [h1'] at hskip
              simp only [Bool.false_eq_true, if_false] at hskip
              by_cases h2 : afterEnd end_date d = true
              · simp [hb, h1', h2]
              · have h2' : afterEnd end_date d = false := by
                  cases hx : afterEnd end_date d
                  · rfl
                  · exact absurd hx h2
                rw [h2'] at hskip
                simp only [Bool.false_eq_true, if_false] at hskip
                rcases hskip with h | h
                · exact absurd h (resolveAndBuild_not_filter_skip m line).2
                · exact absurd h (resolveAndBuild_not_filter_skip m line).1
          · have hb' : (start_date.isSome || end_date.isSome) = false := by
              cases hx : (start_date.isSome || end_date.isSome)
              · rfl
              · exact absurd hx hb
            rw [hb'] at hskip
            simp only [Bool.false_eq_true, if_false] at hskip
            rcases hskip with h | h
            · exact absurd h (resolveAndBuild_not_filter_skip m line).2
            · exact absurd h (resolveAndBuild_not_filter_skip m line).1

/-- Witness for C1: under region US-NY a New Jersey record is region-skipped;
under the 2020-01-01..2020-12-31 window a 2019-12-31 record and a 2021-01-01
record are date-skipped while a 2020-06-15 record is kept. -/
theorem c1_observation_row_filters_witness :
    processRecord demoMap (some "US-NY") (some ⟨2020, 1, 1⟩) (some ⟨2020, 12, 31⟩) lineNJ
        = RowOutcome.skippedRegion ∧
    processRecord demoMap none (some ⟨2020, 1, 1⟩) (some ⟨2020, 12, 31⟩) line2019
        = RowOutcome.skippedDate ∧
    processRecord demoMap none (some ⟨2020, 1, 1⟩) (some ⟨2020, 12, 31⟩) line2021
        = RowOutcome.skippedDate ∧
    ¬ (processRecord demoMap none (some ⟨2020, 1, 1⟩) (some ⟨2020, 12, 31⟩) line2020
        = RowOutcome.skippedDate) := by
  refine ⟨?_, ?_, ?_, ?_⟩
  · exact (c1_observation_row_filters demoMap demoMap (some "US-NY")
      (some ⟨2020, 1, 1⟩) (some ⟨2020, 12, 31⟩) lineNJ).1 "US-NY" rfl
      (by decide) (by decide)
  · exact ((c1_observation_row_filters demoMap demoMap none
      (some ⟨2020, 1, 1⟩) (some ⟨2020, 12, 31⟩) line2019).2.1 (by decide)
      ⟨2019, 12, 31⟩ rfl (by decide)).mpr
      (fun hAB => absurd (hAB.1 ⟨2020, 1, 1⟩ rfl) (by decide))
  · exact ((c1_observation_row_filters demoMap demoMap none
      (some ⟨2020, 1, 1⟩) (some ⟨2020, 12, 31⟩) line2021).2.1 (by decide)
      ⟨2021, 1, 1⟩ rfl (by decide)).mpr
      (fun hAB => absurd (hAB.2 ⟨2020, 12, 31⟩ rfl) (by decide))
  · intro hsd
    exact ((c1_observation_row_filters demoMap demoMap none
      (some ⟨2020, 1, 1⟩) (some ⟨2020, 12, 31⟩) line2020).2.1 (by decide)
      ⟨2020, 6, 15⟩ rfl (by decide)).mp hsd
      ⟨fun s hs => by cases hs; decide, fun e he => by cases he; decide⟩

theorem copyObs_counts_aux (m : List (String × String)) (state_code : Option String)
    (start_date end_date : Option Date) :
    ∀ (input : List ObsRecord) (acc : StageResult),
      (input.foldl (copyObsStep m state_code start_date end_date) acc).num_added
        + (input.foldl (copyObsStep m state_code start_date end_date) acc).num_skipped
        = acc.num_added + acc.num_skipped + input.length := by
  intro input
  induction input with
  | nil => intro acc; simp
  | cons line rest ih =>
      intro acc
      rw [List.foldl_cons, ih]
      unfold copyObsStep
      cases processRecord m state_code start_date end_date line <;> simp <;> omega

theorem processRecordMain_passes (m : List (String × String))
    (state_code : Option String) (start_date end_date : Option Date)
    (line : ObsRecord)
    (hreg : regionSkip state_code line.stateCode = false)
    (hdate : ∀ d, line.observationDate = some d →
        beforeStart start_date d = false ∧ afterEnd end_date d = false) :
    processRecordMain m state_code start_date end_date line
      = resolveAndBuildMain m line := by
  unfold processRecordMain
  rw [hreg]
  simp only [Bool.false_eq_true, if_false]
  cases hod : line.observationDate with
  | none => rfl
  | some d =>
      obtain ⟨h1, h2⟩ := hdate d hod
      by_cases hb : (start_date.isSome || end_date.isSome) = true
      · simp [hb, h1, h2]
      · simp [hb]

/-- C3 counterexample: in the main.py variant of the observations stage, a
record whose SCIENTIFIC NAME has no entry in the species code map aborts the
whole stage with AssertionError instead of being counted as skipped, so the
claim as stated is false for that cited code. -/
theorem c3_counterexample :
    copy_observations_main demoMap none none none [lineUnknown] ⟨[], 0, 0⟩
      = Except.error "AssertionError: Species not found in species table" := rfl

/-- C3 amended: in the package observations stage (db/importers.py) a record
passing the filters whose SCIENTIFIC NAME has no entry in the species code
map takes the skippedSpecies outcome, which only counts it as skipped (the
loaded rows are unchanged and the stage does not fail); a record with an
absent or unresolvable SUBSPECIES SCIENTIFIC NAME is still loaded with an
absent sub_species_code; and at end of stage num_added plus num_skipped
equals the number of input rows read. In the main.py variant, by contrast, a
record passing the filters whose SCIENTIFIC NAME is unresolvable raises
AssertionError, aborting the whole stage. -/
theorem c3_species_resolution (m : List (String × String)) (state_code : Option String)
    (start_date end_date : Option Date) :
    (∀ line : ObsRecord, regionSkip state_code line.stateCode = false →
        (∀ d, line.observationDate = some d →
            beforeStart start_date d = false ∧ afterEnd end_date d = false) →
        (∀ sci, line.scientificName = some sci → m.lookup sci = none) →
        processRecord m state_code start_date end_date line = RowOutcome.skippedSpecies) ∧
    (∀ acc line, processRecord m state_code start_date end_date line
          = RowOutcome.skippedSpecies →
        copyObsStep m state_code start_date end_date acc line
          = { rows := acc.rows, num_added := acc.num_added,
              num_skipped := acc.num_skipped + 1 }) ∧
    (∀ (line : ObsRecord) (sci : String) (code : String),
        regionSkip state_code line.stateCode = false →
        (∀ d, line.observationDate = some d →
            beforeStart start_date d = false ∧ afterEnd end_date d = false) →
        line.scientificName = some sci → m.lookup sci = some code →
        (line.subspeciesScientificName = none ∨
         line.subspeciesScientificName = some "" ∨
         (∃ sub, line.subspeciesScientificName = some sub ∧ m.lookup sub = none)) →
        ∃ row, processRecord m state_code start_date end_date line
            = RowOutcome.added row ∧ row.subSpeciesCode = none) ∧
    (∀ input : List ObsRecord,
        (copy_observations_to_observations_table m state_code start_date end_date
            input).num_added
          + (copy_observations_to_observations_table m state_code start_date end_date
            input).num_skipped
          = input.length) ∧
    (∀ line : ObsRecord, regionSkip state_code line.stateCode = false →
        (∀ d, line.observationDate = some d →
            beforeStart start_date d = false ∧ afterEnd end_date d = false) →
        (∀ sci, line.scientificName = some sci → m.lookup sci = none) →
        processRecordMain m state_code start_date end_date line
          = Except.error "AssertionError: Species not found in species table") ∧
    (∀ (line : ObsRecord) (rest : List ObsRecord) (acc : StageResult),
        regionSkip state_code line.stateCode = false →
        (∀ d, line.observationDate = some d →
            beforeStart start_date d = false ∧ afterEnd end_date d = false) →
        (∀ sci, line.scientificName = some sci → m.lookup sci = none) →
        copy_observations_main m state_code start_date end_date (line :: rest) acc
          = Except.error "AssertionError: Species not found in species table") := by
  have hmain : ∀ line : ObsRecord, regionSkip state_code line.stateCode = false →
      (∀ d, line.observationDate = some d →
          beforeStart start_date d = false ∧ afterEnd end_date d = false) →
      (∀ sci, line.scientificName = some sci → m.lookup sci = none) →
      processRecordMain m state_code start_date end_date line
        = Except.error "AssertionError: Species not found in species table" := by
    intro line hreg hdate hsci
    rw [processRecordMain_passes m state_code start_date end_date line hreg hdate]
    cases hs : line.scientificName with
    | none => simp [resolveAndBuildMain, hs]
    | some sci => simp [resolveAndBuildMain, hs, hsci sci hs]
  refine ⟨?_, ?_, ?_, ?_, hmain, ?_⟩
  · intro line hreg hdate hsci
    rw [processRecord_passes m state_code start_date end_date line hreg hdate]
    cases hs : line.scientificName with
    | none => simp [resolveAndBuild, hs]
    | some sci => simp [resolveAndBuild, hs, hsci sci hs]
  · intro acc line h
    unfold copyObsStep
    rw [h]
  · intro line sci code hreg hdate hs hcode hsub
    rw [processRecord_passes m state_code start_date end_date line hreg hdate]
    have hsubn : subSpeciesResolve m line.subspeciesScientificName = none := by
      rcases hsub with h | h | ⟨sub, hsub1, hsub2⟩
      · rw [h]; rfl
      · rw [h]; simp [subSpeciesResolve]
      · rw [hsub1]; simp [subSpeciesResolve, hsub2]
    simp only [resolveAndBuild, hs, hcode]
    exact ⟨_, rfl, hsubn⟩
  · intro input
    unfold copy_observations_to_observations_table
    rw [copyObs_counts_aux]
    simp
  · intro line rest acc hreg hdate hsci
    simp [copy_observations_main, hmain line hreg hdate hsci]

/-- Witness for C3: with the demo map, a record with an unknown scientific
name is species-skipped and only counted by the package loop; a record with
a known species and an unknown sub-species is loaded with an absent
sub_species_code; counts add up over a three-record input; and the main.py
loop aborts on the unknown-species record. -/
theorem c3_species_resolution_witness :
    processRecord demoMap none none none lineUnknown = RowOutcome.skippedSpecies ∧
    copyObsStep demoMap none none none ⟨[], 0, 0⟩ lineUnknown
      = { rows := [], num_added := 0, num_skipped := 1 } ∧
    processRecord demoMap none none none lineSub = RowOutcome.added demoRowSub ∧
    demoRowSub.subSpeciesCode = none ∧
    (copy_observations_to_observations_table demoMap none none none
        [lineUnknown, lineSub, lineX]).num_added
      + (copy_observations_to_observations_table demoMap none none none
        [lineUnknown, lineSub, lineX]).num_skipped = 3 ∧
    copy_observations_main demoMap none none none [lineUnknown, lineSub] ⟨[], 0, 0⟩
      = Except.error "AssertionError: Species not found in species table" := by
  have hc := c3_species_resolution demoMap none none none
  have h1 : processRecord demoMap none none none lineUnknown
      = RowOutcome.skippedSpecies :=
    hc.1 lineUnknown (by decide) (fun d hd => nomatch hd)
      (fun sci hs => by cases hs; rfl)
  refine ⟨h1, hc.2.1 ⟨[], 0, 0⟩ lineUnknown h1, ?_, ?_, ?_⟩
  · obtain ⟨row, hrow, _⟩ := hc.2.2.1 lineSub "Corvus brachyrhynchos" "amecro"
      (by decide) (fun d hd => nomatch hd) rfl rfl
      (Or.inr (Or.inr ⟨"Corvus unknownii", rfl, rfl⟩))
    have hrow2 : processRecord demoMap none none none lineSub
        = RowOutcome.added demoRowSub := by rfl
    exact hrow2
  · obtain ⟨row, hrow, hnone⟩ := hc.2.2.1 lineSub "Corvus brachyrhynchos" "amecro"
      (by decide) (fun d hd => nomatch hd) rfl rfl
      (Or.inr (Or.inr ⟨"Corvus unknownii", rfl, rfl⟩))
    have hrow2 : processRecord demoMap none none none lineSub
        = RowOutcome.added demoRowSub := by rfl
    rw [hrow2] at hrow
    have : row = demoRowSub := (RowOutcome.added.inj hrow).symm
    rw [← this]
    exact hnone
  · exact ⟨hc.2.2.2.1 [lineUnknown, lineSub, lineX],
      hc.2.2.2.2.2 lineUnknown [lineSub] ⟨[], 0, 0⟩ (by decide)
        (fun d hd => nomatch hd) (fun sci hs => by cases hs; rfl)⟩

/-- C4: every loaded observation row has an absent observation_count exactly
when the OBSERVATION COUNT field was the sentinel X; any other value is
passed through unchanged. -/
theorem c4_count_sentinel (m : List (String × String)) (state_code : Option String)
    (start_date end_date : Option Date) (line : ObsRecord) (row : ObsRow)
    (h : processRecord m state_code start_date end_date line = RowOutcome.added row) :
    (line.observationCount = some "X" → row.observationCount = none) ∧
    (line.observationCount ≠ some "X" → row.observationCount = line.observationCount) := by
  have hres : resolveAndBuild m line = RowOutcome.added row := by
    unfold processRecord at h
    by_cases hreg : regionSkip state_code line.stateCode = true
    · rw [hreg] at h
      simp only [if_true] at h
      exact absurd h (fun hx => nomatch hx)
    · have hreg' : regionSkip state_code line.stateCode = false := by
        cases hx : regionSkip state_code line.stateCode
        · rfl
        · exact absurd hx hreg
      rw [hreg'] at h
      simp only [Bool.false_eq_true, if_false] at h
      cases hod : line.observationDate with
      | none => rw [hod] at h; exact h
      | some d =>
          rw [hod] at h
          by_cases hb : (start_date.isSome || end_date.isSome) = true
          · rw [hb] at h
            simp only [if_true] at h
            by_cases h1 : beforeStart start_date d = true
            · rw [h1] at h
              simp only [if_true] at h
              exact absurd h (fun hx => nomatch hx)
            · have h1' : beforeStart start_date d = false := by
                cases hx : beforeStart start_date d
                · rfl
                · exact absurd hx h1
              rw [h1'] at h
              simp only [Bool.false_eq_true, if_false] at h
              by_cases h2 : afterEnd end_date d = true
              · rw [h2] at h
                simp only [if_true] at h
                exact absurd h (fun hx => nomatch hx)
              · have h2' : afterEnd end_date d = false := by
                  cases hx : afterEnd end_date d
                  · rfl
                  · exact absurd hx h2
                rw [h2'] at h
                simp only [Bool.false_eq_true, if_false] at h
                exact h
          · have hb' : (start_date.isSome || end_date.isSome) = false := by
              cases hx : (start_date.isSome || end_date.isSome)
              · rfl
              · exact absurd hx hb
            rw [hb'] at h
            simp only [Bool.false_eq_true, if_false] at h
            exact h
  cases hs : line.scientificName with
  | none => simp [resolveAndBuild, hs] at hres
  | some sci =>
      cases hc : m.lookup sci with
      | none => simp [resolveAndBuild, hs, hc] at hres
      | some code =>
          simp only [resolveAndBuild, hs, hc, RowOutcome.added.injEq] at hres
          constructor
          · intro hx
            rw [← hres]
            simp [hx]
          · intro hx
            rw [← hres]
            simp [hx]

/-- Witness for C4: the record with OBSERVATION COUNT X is loaded with an
absent count. -/
theorem c4_count_sentinel_witness :
    processRecord demoMap none none none lineX = RowOutcome.added demoRowX ∧
    demoRowX.observationCount = none := by
  have h : processRecord demoMap none none none lineX = RowOutcome.added demoRowX := by rfl
  exact ⟨h, (c4_count_sentinel demoMap none none none lineX demoRowX h).1 rfl⟩

theorem find?_append_or {α : Type} (p : α → Bool) :
    ∀ (l1 l2 : List α), (l1 ++ l2).find? p = (l1.find? p).or (l2.find? p) := by
  intro l1
  induction l1 with
  | nil => intro l2; simp
  | cons a t ih =>
      intro l2
      by_cases hp : p a = true
      · simp [List.find?_cons, hp]
      · have hp' : p a = false := by
          cases hx : p a
          · rfl
          · exact absurd hx hp
        simp [List.find?_cons, hp', ih l2]

theorem find?_map_with {α β : Type} (f : α → β) (p : β → Bool) (q : α → Bool)
    (hq : ∀ a, q a = p (f a)) :
    ∀ l : List α, (l.map f).find? p = (l.find? q).map f := by
  intro l
  induction l with
  | nil => rfl
  | cons a t ih =>
      by_cases hp : p (f a) = true
      · simp [List.find?_cons, hp, hq a]
      · have hp' : p (f a) = false := by
          cases hx : p (f a)
          · rfl
          · exact absurd hx hp
        have hqa : q a = false := by rw [hq a, hp']
        simp [List.find?_cons, hp', hqa, ih]

theorem find?_isSome_iff_mem_keys {α : Type} (key : α → String) (k : String)
    (l : List α) :
    (l.find? (fun a => decide (key a = k))).isSome = true ↔ k ∈ l.map key := by
  rw [List.find?_isSome]
  constructor
  · rintro ⟨x, hx, hpx⟩
    exact List.mem_map.mpr ⟨x, hx, of_decide_eq_true hpx⟩
  · intro hm
    obtain ⟨x, hx, hxk⟩ := List.mem_map.mp hm
    exact ⟨x, hx, decide_eq_true hxk⟩

theorem insertIfKeyAbsent_find? {α : Type} (key : α → String) (k : String) :
    ∀ (xs table : List α),
      (insertIfKeyAbsent key table xs).find? (fun a => decide (key a = k))
        = (table.find? (fun a => decide (key a = k))).or
            (xs.find? (fun a => decide (key a = k))) := by
  intro xs
  induction xs with
  | nil =>
      intro table
      simp [insertIfKeyAbsent]
  | cons r rest ih =>
      intro table
      by_cases hmem : table.any (fun x => decide (key x = key r)) = true
      · simp only [insertIfKeyAbsent, hmem, if_true]
        rw [ih table]
        by_cases hk : key r = k
        · have hsome : (table.find? (fun a => decide (key a = k))).isSome = true := by
            rw [List.find?_isSome]
            rw [List.any_eq_true] at hmem
            obtain ⟨x, hx, hxk⟩ := hmem
            exact ⟨x, hx, decide_eq_true ((of_decide_eq_true hxk).trans hk)⟩
          obtain ⟨v, hv⟩ := Option.isSome_iff_exists.mp hsome
          rw [hv]
          rfl
        · have hpr : decide (key r = k) = false := decide_eq_false hk
          have hcons : (r :: rest).find? (fun a => decide (key a = k))
              = rest.find? (fun a => decide (key a = k)) := by
            simp [List.find?_cons, hpr]
          rw [hcons]
      · have hmem' : table.any (fun x => decide (key x = key r)) = false := by
          cases hx : table.any (fun x => decide (key x = key r))
          · rfl
          · exact absurd hx hmem
        simp only [insertIfKeyAbsent, hmem', Bool.false_eq_true, if_false]
        rw [ih (table ++ [r]), find?_append_or, Option.or_assoc]
        congr 1
        by_cases hk : decide (key r = k) = true
        · simp [List.find?_cons, hk]
        · have hk' : decide (key r = k) = false := by
            cases hx : decide (key r = k)
            · rfl
            · exact absurd hx hk
          simp [List.find?_cons, hk']

theorem insertIfKeyAbsent_mem_keys {α : Type} (key : α → String) (k : String)
    (xs : List α) :
    k ∈ (insertIfKeyAbsent key [] xs).map key ↔ k ∈ xs.map key := by
  rw [← find?_isSome_iff_mem_keys key k, ← find?_isSome_iff_mem_keys key k,
    insertIfKeyAbsent_find? key k xs []]
  simp

theorem insertIfKeyAbsent_nodup_keys {α : Type} (key : α → String) :
    ∀ (xs table : List α), (table.map key).Nodup →
      ((insertIfKeyAbsent key table xs).map key).Nodup := by
  intro xs
  induction xs with
  | nil =>
      intro table h
      simpa [insertIfKeyAbsent] using h
  | cons r rest ih =>
      intro table h
      by_cases hmem : table.any (fun x => decide (key x = key r)) = true
      · simp only [insertIfKeyAbsent, hmem, if_true]
        exact ih table h
      · have hmem' : table.any (fun x => decide (key x = key r)) = false := by
          cases hx : table.any (fun x => decide (key x = key r))
          · rfl
          · exact absurd hx hmem
        simp only [insertIfKeyAbsent, hmem', Bool.false_eq_true, if_false]
        apply ih
        rw [List.map_append]
        rw [List.nodup_append]
        refine ⟨h, List.nodup_singleton _, ?_⟩
        intro a ha hb
        rw [List.map_singleton, List.mem_singleton] at hb
        subst hb
        obtain ⟨x, hx, hxa⟩ := List.mem_map.mp ha
        have : table.any (fun x => decide (key x = key r)) = true := by
          rw [List.any_eq_true]
          exact ⟨x, hx, decide_eq_true hxa⟩
        rw [this] at hmem'
        cases hmem'

theorem filter_key_count_of_nodup {α : Type} (key : α → String) (k : String) :
    ∀ l : List α, (l.map key).Nodup →
      (l.filter (fun a => decide (key a = k))).length
        = if k ∈ l.map key then 1 else 0 := by
  intro l
  induction l with
  | nil => intro h; simp
  | cons a t ih =>
      intro h
      rw [List.map_cons, List.nodup_cons] at h
      obtain ⟨hnotin, hnd⟩ := h
      by_cases hk : key a = k
      · have hpa : decide (key a = k) = true := decide_eq_true hk
        have ht : k ∉ t.map key := by rw [← hk]; exact hnotin
        simp only [List.filter_cons, hpa, if_true, List.length_cons]
        rw [ih hnd]
        simp [ht, hk]
      · have hpa : decide (key a = k) = false := decide_eq_false hk
        simp only [List.filter_cons, hpa, Bool.false_eq_true, if_false]
        rw [ih hnd]
        have hiff : (k ∈ key a :: t.map key) ↔ (k ∈ t.map key) := by
          rw [List.mem_cons]
          constructor
          · rintro (he | hm)
            · exact absurd he.symm hk
            · exact hm
          · exact Or.inr
        rw [List.map_cons]
        rw [if_congr hiff rfl rfl]

theorem insertIfKeyAbsent_no_new {α : Type} (key : α → String) :
    ∀ (xs table : List α), (∀ r ∈ xs, ∃ a ∈ table, key a = key r) →
      insertIfKeyAbsent key table xs = table := by
  intro xs
  induction xs with
  | nil => intro table _; rfl
  | cons r rest ih =>
      intro table h
      have hmem : table.any (fun x => decide (key x = key r)) = true := by
        rw [List.any_eq_true]
        obtain ⟨a, ha, hak⟩ := h r (List.mem_cons_self r rest)
        exact ⟨a, ha, decide_eq_true hak⟩
      simp only [insertIfKeyAbsent, hmem, if_true]
      exact ih table (fun x hx => h x (List.mem_cons_of_mem r hx))

theorem fillTable_spec {α β : Type} (keyS : α → String) (keyT : β → String)
    (proj : α → β) (hproj : ∀ s, keyT (proj s) = keyS s) (staging : List α) :
    (∀ k, ((insertIfKeyAbsent keyT []
            ((insertIfKeyAbsent keyS [] staging).map proj)).filter
          (fun r => decide (keyT r = k))).length
        = if k ∈ staging.map keyS then 1 else 0) ∧
    (∀ k, (insertIfKeyAbsent keyT []
            ((insertIfKeyAbsent keyS [] staging).map proj)).find?
          (fun r => decide (keyT r = k))
        = (staging.find? (fun s => decide (keyS s = k))).map proj) ∧
    insertIfKeyAbsent keyT
        (insertIfKeyAbsent keyT [] ((insertIfKeyAbsent keyS [] staging).map proj))
        ((insertIfKeyAbsent keyS [] staging).map proj)
      = insertIfKeyAbsent keyT []
          ((insertIfKeyAbsent keyS [] staging).map proj) := by
  have hfind : ∀ k, (insertIfKeyAbsent keyT []
        ((insertIfKeyAbsent keyS [] staging).map proj)).find?
        (fun r => decide (keyT r = k))
      = (staging.find? (fun s => decide (keyS s = k))).map proj := by
    intro k
    rw [insertIfKeyAbsent_find? keyT k _ []]
    rw [find?_map_with proj (fun r => decide (keyT r = k))
      (fun s => decide (keyS s = k)) (fun s => by simp [hproj s])]
    rw [insertIfKeyAbsent_find? keyS k staging []]
    simp
  have hmem : ∀ k, (k ∈ (insertIfKeyAbsent keyT []
        ((insertIfKeyAbsent keyS [] staging).map proj)).map keyT)
      ↔ k ∈ staging.map keyS := by
    intro k
    rw [← find?_isSome_iff_mem_keys keyT k, ← find?_isSome_iff_mem_keys keyS k,
      hfind k]
    cases staging.find? (fun s => decide (keyS s = k)) <;> simp
  refine ⟨?_, hfind, ?_⟩
  · intro k
    rw [filter_key_count_of_nodup keyT k _
      (insertIfKeyAbsent_nodup_keys keyT _ [] (by simp))]
    rw [if_congr (hmem k) rfl rfl]
  · apply insertIfKeyAbsent_no_new
    intro r hr
    have hk : keyT r ∈ (insertIfKeyAbsent keyT []
        ((insertIfKeyAbsent keyS [] staging).map proj)).map keyT := by
      rw [hmem (keyT r)]
      obtain ⟨s, hs, hsr⟩ := List.mem_map.mp hr
      have hks : keyT r = keyS s := by rw [← hsr, hproj s]
      rw [hks]
      exact (insertIfKeyAbsent_mem_keys keyS (keyS s) staging).mp
        (List.mem_map_of_mem keyS hs)
    obtain ⟨a, ha, hak⟩ := List.mem_map.mp hk
    exact ⟨a, ha, hak⟩

/-- C5: from empty targets, the localities stage loads exactly one row per
distinct locality_id of the staged rows and the checklists stage exactly one
row per distinct sampling_event_id; the single row kept for a key is the
projection of the first staged occurrence of that key; and re-running either
stage against the storage produced by the first run inserts nothing. -/
theorem c5_dedup_idempotence (staging : List StagingRow) :
    (∀ k, ((create_and_fill_locality_table [] staging).filter
          (fun r => decide (r.locality_id = k))).length
        = if k ∈ staging.map (fun s => s.locality_id) then 1 else 0) ∧
    (∀ k, (create_and_fill_locality_table [] staging).find?
          (fun r => decide (r.locality_id = k))
        = (staging.find? (fun s => decide (s.locality_id = k))).map
            localityProjection) ∧
    create_and_fill_locality_table (create_and_fill_locality_table [] staging)
        staging
      = create_and_fill_locality_table [] staging ∧
    (∀ k, ((create_and_fill_checklist_table [] staging).filter
          (fun r => decide (r.sampling_event_id = k))).length
        = if k ∈ staging.map (fun s => s.sampling_event_id) then 1 else 0) ∧
    (∀ k, (create_and_fill_checklist_table [] staging).find?
          (fun r => decide (r.sampling_event_id = k))
        = (staging.find? (fun s => decide (s.sampling_event_id = k))).map
            checklistProjection) ∧
    create_and_fill_checklist_table (create_and_fill_checklist_table [] staging)
        staging
      = create_and_fill_checklist_table [] staging := by
  obtain ⟨hL1, hL2, hL3⟩ := fillTable_spec (fun s : StagingRow => s.locality_id)
    (fun r : LocalityRow => r.locality_id) localityProjection (fun s => rfl) staging
  obtain ⟨hC1, hC2, hC3⟩ := fillTable_spec (fun s : StagingRow => s.sampling_event_id)
    (fun r : ChecklistRow => r.sampling_event_id) checklistProjection (fun s => rfl)
    staging
  exact ⟨hL1, hL2, hL3, hC1, hC2, hC3⟩

/-- C6: over a forward-only member stream, so with non-decreasing tell
positions, every per-record last_bytes_read value is non-negative (hence
cumulative progress never decreases) and the values sum to the total bytes
consumed between the starting offset and the final position. -/
theorem c6_progress_accounting (start : Int) (tells : List Int)
    (h : List.Chain' (fun a b => a ≤ b) (start :: tells)) :
    (∀ d ∈ progressDeltas start tells, 0 ≤ d) ∧
    (progressDeltas start tells).sum = tells.getLastD start - start := by
  induction tells generalizing start with
  | nil =>
      refine ⟨?_, ?_⟩
      · intro d hd
        cases hd
      · simp [progressDeltas]
  | cons t ts ih =>
      rw [List.chain'_cons] at h
      obtain ⟨h1, h2⟩ := h
      obtain ⟨ihn, ihs⟩ := ih t h2
      constructor
      · intro d hd
        simp only [progressDeltas, List.mem_cons] at hd
        rcases hd with he | hm
        · subst he
          omega
        · exact ihn d hm
      · simp only [progressDeltas, List.sum_cons, List.getLastD_cons]
        rw [ihs]
        omega

/-- Witness for C6: over tell positions 3, 7, 7, 10 from offset 0 the deltas
sum to 10 and each is non-negative. -/
theorem c6_progress_accounting_witness :
    (progressDeltas 0 [3, 7, 7, 10]).sum = 10 ∧
    (progressDeltas 0 [3, 7, 7, 10]).all (fun d => decide (0 ≤ d)) = true := by
  have h := c6_progress_accounting 0 [3, 7, 7, 10] (by simp [List.chain'_cons])
  refine ⟨by rw [h.2]; rfl, ?_⟩
  rw [List.all_eq_true]
  intro d hd
  exact decide_eq_true (h.1 d hd)

/-- C7 counterexample: on a tar archive whose single member data.txt does
not match the sampling suffix, construction fails as the claim says, but the
claim that every handle opened before the failure is closed before the error
is signaled is false: the container handle is still open when the ValueError
propagates (neither constructor nor get_archive_member_reader closes it; the
unit tests close the tar file themselves even after an expected constructor
failure). -/
theorem c7_counterexample :
    (tarMemberReader_initHandles ["data.txt"] "_sampling.txt.gz").1.isOk = false ∧
    (tarMemberReader_initHandles ["data.txt"] "_sampling.txt.gz").2.containerOpen
      = true := ⟨rfl, rfl⟩

/-- C7 amended: when no member matches the suffix, both constructors raise
the MemberNotFound ValueError without having opened any member handle, and
the container handle opened before the failure remains open when the error
is signaled; closing it is left to the caller. -/
theorem c7_failed_constructor_handles (names : List String) (suffix : String)
    (h : ∀ nm ∈ names, pyEndsWith nm suffix = false) :
    (tarMemberReader_initHandles names suffix).1.isOk = false ∧
    (tarMemberReader_initHandles names suffix).2
      = { containerOpen := true, memberHandles := 0 } ∧
    (zipReader_initHandles names suffix).1.isOk = false ∧
    (zipReader_initHandles names suffix).2
      = { containerOpen := true, memberHandles := 0 } := by
  have hfil : names.filter (fun nm => pyEndsWith nm suffix) = [] := by
    rw [List.filter_eq_nil_iff]
    intro a ha
    simp [h a ha]
  have hloop : findMemberLoop names suffix = none := by
    rw [findMemberLoop_eq, hfil]
    rfl
  refine ⟨?_, ?_, ?_, ?_⟩
  · show (tarMemberReader_init names suffix).isOk = false
    unfold tarMemberReader_init
    rw [hloop]
    rfl
  · simp [tarMemberReader_initHandles, hfil]
  · show (zipReader_init names suffix).isOk = false
    unfold zipReader_init
    rw [hloop]
    rfl
  · simp [zipReader_initHandles, hfil]

/-- Witness for the amended C7 at a concrete archive listing. -/
theorem c7_failed_constructor_handles_witness :
    (tarMemberReader_initHandles ["obs.txt"] "_sampling.txt.gz").2.containerOpen
      = true ∧
    (zipReader_initHandles ["obs.txt"] "_sampling.txt.gz").1.isOk = false := by
  have h := c7_failed_constructor_handles ["obs.txt"] "_sampling.txt.gz" (by decide)
  refine ⟨?_, h.2.2.1⟩
  rw [h.2.1]

theorem lookup_append_single {β : Type} (k0 k : String) (v : β) :
    ∀ r : List (String × β),
      (r ++ [(k0, v)]).lookup k
        = (r.lookup k).or (if k == k0 then some v else none) := by
  intro r
  induction r with
  | nil =>
      by_cases hk : (k == k0) = true
      · simp [List.lookup, hk]
      · have hk' : (k == k0) = false := by
          cases hx : (k == k0)
          · rfl
          · exact absurd hx hk
        simp [List.lookup, hk']
  | cons p t ih =>
      obtain ⟨a, b⟩ := p
      by_cases hk : (k == a) = true
      · simp [List.lookup, hk]
      · have hk' : (k == a) = false := by
          cases hx : (k == a)
          · rfl
          · exact absurd hx hk
        simp [List.lookup, hk', ih]

theorem lookup_eq_none_of_hasKey_false (r : List (String × Option String))
    (k : String) (h : hasKey r k = false) : r.lookup k = none := by
  unfold hasKey at h
  cases hx : r.lookup k with
  | none => rfl
  | some v => rw [hx] at h; cases h

theorem fillKey_lookup_self (r : List (String × Option String)) (k0 : String)
    (h : hasKey r k0 = false) : (fillKey r k0).lookup k0 = some none := by
  unfold fillKey
  rw [h]
  simp only [Bool.false_eq_true, if_false]
  rw [lookup_append_single]
  rw [lookup_eq_none_of_hasKey_false r k0 h]
  simp

theorem fillKey_lookup_preserve (r : List (String × Option String))
    (k0 k : String) (h : (r.lookup k).isSome = true) :
    (fillKey r k0).lookup k = r.lookup k := by
  unfold fillKey
  by_cases hk : hasKey r k0 = true
  · rw [hk]
    simp
  · have hk' : hasKey r k0 = false := by
      cases hx : hasKey r k0
      · rfl
      · exact absurd hx hk
    rw [hk']
    simp only [Bool.false_eq_true, if_false]
    rw [lookup_append_single]
    obtain ⟨v, hv⟩ := Option.isSome_iff_exists.mp h
    rw [hv]
    rfl

theorem fillKey_isSome_mono (r : List (String × Option String))
    (k0 k : String) (h : (r.lookup k).isSome = true) :
    ((fillKey r k0).lookup k).isSome = true := by
  rw [fillKey_lookup_preserve r k0 k h]
  exact h

theorem fillKey_self_isSome (r : List (String × Option String)) (k0 : String) :
    ((fillKey r k0).lookup k0).isSome = true := by
  by_cases h : hasKey r k0 = true
  · unfold fillKey
    rw [h]
    simp only [if_true]
    exact h
  · have h' : hasKey r k0 = false := by
      cases hx : hasKey r k0
      · rfl
      · exact absurd hx h
    rw [fillKey_lookup_self r k0 h']
    rfl

theorem fillKey_absent_other (r : List (String × Option String))
    (k0 k : String) (hne : (k == k0) = false) (h : hasKey r k = false) :
    hasKey (fillKey r k0) k = false := by
  unfold fillKey
  by_cases hk : hasKey r k0 = true
  · rw [hk]
    simpa using h
  · have hk' : hasKey r k0 = false := by
      cases hx : hasKey r k0
      · rfl
      · exact absurd hx hk
    rw [hk']
    simp only [Bool.false_eq_true, if_false]
    unfold hasKey
    rw [lookup_append_single, lookup_eq_none_of_hasKey_false r k h, hne]
    rfl

theorem bindParams_isOk_iff (r : List (String × Option String)) :
    ∀ ks : List String, (bindParams r ks).isOk = true ↔
      ∀ k ∈ ks, (r.lookup k).isSome = true := by
  intro ks
  induction ks with
  | nil =>
      constructor
      · intro _ k hk
        cases hk
      · intro _
        rfl
  | cons k ks ih =>
      cases hv : r.lookup k with
      | none =>
          constructor
          · intro h
            exfalso
            have : bindParams r (k :: ks)
                = Except.error ("query parameter missing: " ++ k) := by
              simp [bindParams, hv]
            rw [this] at h
            cases h
          · intro hall
            exfalso
            have := hall k (List.mem_cons_self k ks)
            rw [hv] at this
            cases this
      | some v =>
          cases hbk : bindParams r ks with
          | error e =>
              constructor
              · intro h
                exfalso
                have : bindParams r (k :: ks) = Except.error e := by
                  simp [bindParams, hv, hbk]
                rw [this] at h
                cases h
              · intro hall
                exfalso
                have : (bindParams r ks).isOk = true :=
                  ih.mpr (fun k2 hk2 => hall k2 (List.mem_cons_of_mem k hk2))
                rw [hbk] at this
                cases this
          | ok vs =>
              constructor
              · intro _ k2 hk2
                rcases List.mem_cons.mp hk2 with he | hm
                · subst he
                  rw [hv]
                  rfl
                · have : (bindParams r ks).isOk = true := by rw [hbk]; rfl
                  exact (ih.mp this) k2 hm
              · intro _
                have hrw : bindParams r (k :: ks) = Except.ok (v :: vs) := by
                  simp [bindParams, hv, hbk]
                rw [hrw]
                rfl

/-- C8 counterexample: a species record carrying exactly speciesCode and
sciName is not inserted cleanly: the fill-in loop defaults only the four
family fields, so the comName placeholder of the INSERT has no value and the
parameter binding fails, contradicting the claim that every missing optional
field is defaulted. -/
theorem c8_counterexample :
    bindInsertParams (fillMissingKeys bareSpeciesRecord)
      = Except.error "query parameter missing: comName" := rfl

/-- C8 amended: the fill-in loop defaults exactly order, familyCode,
familyComName and familySciName to an explicit null when missing; a record
carrying speciesCode, sciName and the remaining optional fields comName,
category, taxonOrder, bandingCodes, comNameCodes and sciNameCodes binds all
INSERT parameters without a lookup failure, while those six fields are never
defaulted. -/
theorem c8_species_field_defaults (r : List (String × Option String))
    (hsp : hasKey r "speciesCode" = true) (hsci : hasKey r "sciName" = true)
    (hcom : hasKey r "comName" = true) (hcat : hasKey r "category" = true)
    (htax : hasKey r "taxonOrder" = true) (hband : hasKey r "bandingCodes" = true)
    (hcnc : hasKey r "comNameCodes" = true) (hsnc : hasKey r "sciNameCodes" = true) :
    (bindInsertParams (fillMissingKeys r)).isOk = true ∧
    (hasKey r "order" = false → (fillMissingKeys r).lookup "order" = some none) ∧
    (hasKey r "familyCode" = false →
        (fillMissingKeys r).lookup "familyCode" = some none) ∧
    (hasKey r "familyComName" = false →
        (fillMissingKeys r).lookup "familyComName" = some none) ∧
    (hasKey r "familySciName" = false →
        (fillMissingKeys r).lookup "familySciName" = some none) := by
  have hmono4 : ∀ k, (r.lookup k).isSome = true →
      ((fillMissingKeys r).lookup k).isSome = true := by
    intro k hk
    unfold fillMissingKeys
    exact fillKey_isSome_mono _ _ _ (fillKey_isSome_mono _ _ _
      (fillKey_isSome_mono _ _ _ (fillKey_isSome_mono _ _ _ hk)))
  refine ⟨?_, ?_, ?_, ?_, ?_⟩
  · rw [show bindInsertParams (fillMissingKeys r)
        = bindParams (fillMissingKeys r) insertParamKeys from rfl]
    rw [bindParams_isOk_iff]
    intro k hk
    unfold insertParamKeys at hk
    simp only [List.mem_cons, List.not_mem_nil, or_false] at hk
    rcases hk with h | h | h | h | h | h | h | h | h | h | h | h <;> subst h
    · exact hmono4 _ hsp
    · exact hmono4 _ hcom
    · exact hmono4 _ hsci
    · exact hmono4 _ hcat
    · exact hmono4 _ htax
    · exact hmono4 _ hband
    · exact hmono4 _ hcnc
    · exact hmono4 _ hsnc
    · show ((fillKey (fillKey (fillKey (fillKey r "order") "familyCode")
        "familyComName") "familySciName").lookup "order").isSome = true
      exact fillKey_isSome_mono _ _ _ (fillKey_isSome_mono _ _ _
        (fillKey_isSome_mono _ _ _ (fillKey_self_isSome r "order")))
    · exact fillKey_isSome_mono _ _ _ (fillKey_isSome_mono _ _ _
        (fillKey_self_isSome (fillKey r "order") "familyCode"))
    · exact fillKey_isSome_mono _ _ _
        (fillKey_self_isSome (fillKey (fillKey r "order") "familyCode")
          "familyComName")
    · exact fillKey_self_isSome
        (fillKey (fillKey (fillKey r "order") "familyCode") "familyComName")
        "familySciName"
  · intro h
    unfold fillMissingKeys
    have h1 : (fillKey r "order").lookup "order" = some none :=
      fillKey_lookup_self r "order" h
    have h2 := fillKey_lookup_preserve (fillKey r "order") "familyCode" "order"
      (by rw [h1]; rfl)
    rw [h1] at h2
    have h3 := fillKey_lookup_preserve (fillKey (fillKey r "order") "familyCode")
      "familyComName" "order" (by rw [h2]; rfl)
    rw [h2] at h3
    have h4 := fillKey_lookup_preserve
      (fillKey (fillKey (fillKey r "order") "familyCode") "familyComName")
      "familySciName" "order" (by rw [h3]; rfl)
    rw [h3] at h4
    exact h4
  · intro h
    unfold fillMissingKeys
    have h0 : hasKey (fillKey r "order") "familyCode" = false :=
      fillKey_absent_other r "order" "familyCode" rfl h
    have h1 : (fillKey (fillKey r "order") "familyCode").lookup "familyCode"
        = some none := fillKey_lookup_self _ "familyCode" h0
    have h2 := fillKey_lookup_preserve (fillKey (fillKey r "order") "familyCode")
      "familyComName" "familyCode" (by rw [h1]; rfl)
    rw [h1] at h2
    have h3 := fillKey_lookup_preserve
      (fillKey (fillKey (fillKey r "order") "familyCode") "familyComName")
      "familySciName" "familyCode" (by rw [h2]; rfl)
    rw [h2] at h3
    exact h3
  · intro h
    unfold fillMissingKeys
    have h0 : hasKey (fillKey (fillKey r "order") "familyCode") "familyComName"
        = false :=
      fillKey_absent_other _ "familyCode" "familyComName" rfl
        (fillKey_absent_other r "order" "familyComName" rfl h)
    have h1 : (fillKey (fillKey (fillKey r "order") "familyCode")
        "familyComName").lookup "familyComName" = some none :=
      fillKey_lookup_self _ "familyComName" h0
    have h2 := fillKey_lookup_preserve
      (fillKey (fillKey (fillKey r "order") "familyCode") "familyComName")
      "familySciName" "familyComName" (by rw [h1]; rfl)
    rw [h1] at h2
    exact h2
  · intro h
    unfold fillMissingKeys
    have h0 : hasKey (fillKey (fillKey (fillKey r "order") "familyCode")
        "familyComName") "familySciName" = false :=
      fillKey_absent_other _ "familyComName" "familySciName" rfl
        (fillKey_absent_other _ "familyCode" "familySciName" rfl
          (fillKey_absent_other r "order" "familySciName" rfl h))
    exact fillKey_lookup_self _ "familySciName" h0

/-- Witness for the amended C8: the record with the eight never-defaulted
fields binds cleanly and gets an explicit null for the missing order
field. -/
theorem c8_species_field_defaults_witness :
    (bindInsertParams (fillMissingKeys richSpeciesRecord)).isOk = true ∧
    (fillMissingKeys richSpeciesRecord).lookup "order" = some none := by
  have h := c8_species_field_defaults richSpeciesRecord rfl rfl rfl rfl rfl rfl rfl rfl
  exact ⟨h.1, h.2.1 rfl⟩

/-- C9 counterexample: against a storage state without the staging table,
the drop_sampling stage of main.py fails with an UndefinedTable error
instead of succeeding, because its DROP TABLE has no IF EXISTS. -/
theorem c9_counterexample :
    mainDropSampling ["localities", "checklists"]
      = Except.error "UndefinedTable: tmp_sampling_table" := by
  unfold mainDropSampling
  rw [if_neg]
  intro h
  simp [TMP_SAMPLING_TABLE] at h

/-- C9 amended: the interactive pipeline drop stage (DROP TABLE IF EXISTS)
succeeds on every storage state, removing the staging table when present and
keeping every other table; the main.py drop_sampling stage succeeds exactly
when the staging table exists and fails with UndefinedTable when it does
not. -/
theorem c9_drop_sampling_behavior (tables : List String) (h : tables.Nodup) :
    (cliDropSampling tables).isOk = true ∧
    (∀ ts, cliDropSampling tables = Except.ok ts →
        TMP_SAMPLING_TABLE ∉ ts ∧
        ∀ t, t ≠ TMP_SAMPLING_TABLE → (t ∈ ts ↔ t ∈ tables)) ∧
    (TMP_SAMPLING_TABLE ∈ tables →
        mainDropSampling tables = Except.ok (tables.erase TMP_SAMPLING_TABLE)) ∧
    (TMP_SAMPLING_TABLE ∉ tables →
        mainDropSampling tables
          = Except.error "UndefinedTable: tmp_sampling_table") := by
  refine ⟨rfl, ?_, ?_, ?_⟩
  · intro ts hts
    have hts' : ts = tables.erase TMP_SAMPLING_TABLE := by
      unfold cliDropSampling at hts
      exact (Except.ok.inj hts).symm
    subst hts'
    refine ⟨h.not_mem_erase, ?_⟩
    intro t ht
    exact List.mem_erase_of_ne ht
  · intro hmem
    unfold mainDropSampling
    rw [if_pos hmem]
  · intro hmem
    unfold mainDropSampling
    rw [if_neg hmem]

/-- Witness for the amended C9 at concrete storage states. -/
theorem c9_drop_sampling_behavior_witness :
    (cliDropSampling ["localities"]).isOk = true ∧
    TMP_SAMPLING_TABLE ∉ (["localities"].erase TMP_SAMPLING_TABLE) ∧
    mainDropSampling ["tmp_sampling_table"]
      = Except.ok (["tmp_sampling_table"].erase TMP_SAMPLING_TABLE) ∧
    mainDropSampling ["localities"]
      = Except.error "UndefinedTable: tmp_sampling_table" := by
  have h1 := c9_drop_sampling_behavior ["localities"] (by simp)
  have h2 := c9_drop_sampling_behavior ["tmp_sampling_table"] (by simp)
  refine ⟨h1.1, ?_, ?_, ?_⟩
  · exact (h1.2.1 (["localities"].erase TMP_SAMPLING_TABLE) rfl).1
  · exact h2.2.2.1 (by simp [TMP_SAMPLING_TABLE])
  · exact h1.2.2.2 (by simp [TMP_SAMPLING_TABLE])

/-- C10: through a connection opened by open_connection, as used by every
writing stage, a string value is dumped as NULL exactly when all of its
characters are whitespace (so when it is empty or whitespace-only), and any
other string is stored unchanged. -/
theorem c10_null_string_normalization (st : Stage) (s : String) :
    ((stageConnection st).dumpStr s = none ↔ s.data.all pyIsSpaceChar = true) ∧
    (s.data.all pyIsSpaceChar = false →
        (stageConnection st).dumpStr s = some s) := by
  have hconn : (stageConnection st).dumpStr = NullStrDumper_dump := rfl
  rw [hconn]
  unfold NullStrDumper_dump pyStrIsSpace
  by_cases he : (s == "") = true
  · have hs : s = "" := eq_of_beq he
    subst hs
    constructor
    · simp
    · intro hfalse
      have : (("" : String).data.all pyIsSpaceChar) = true := rfl
      rw [this] at hfalse
      cases hfalse
  · have he' : (s == "") = false := by
      cases hx : (s == "")
      · rfl
      · exact absurd hx he
    rw [he']
    simp only [Bool.false_or, Bool.not_false, Bool.true_and]
    by_cases ha : s.data.all pyIsSpaceChar = true
    · rw [ha]
      constructor
      · simp
      · intro hfalse
        simp at hfalse
    · have ha' : s.data.all pyIsSpaceChar = false := by
        cases hx : s.data.all pyIsSpaceChar
        · rfl
        · exact absurd hx ha
      rw [ha']
      constructor
      · simp
      · intro _
        rfl

/-- Witness for C10: a plain string passes unchanged, while a whitespace-only
string, an empty string and a no-break-space-only string are stored as NULL,
across different stages. -/
theorem c10_null_string_normalization_witness :
    (stageConnection Stage.observations).dumpStr "abc" = some "abc" ∧
    (stageConnection Stage.copy_sampling).dumpStr "  " = none ∧
    (stageConnection Stage.species).dumpStr "" = none ∧
    (stageConnection Stage.localities).dumpStr "\u00A0" = none := by
  refine ⟨?_, ?_, ?_, ?_⟩
  · exact (c10_null_string_normalization Stage.observations "abc").2 (by decide)
  · exact (c10_null_string_normalization Stage.copy_sampling "  ").1.mpr (by decide)
  · exact (c10_null_string_normalization Stage.species "").1.mpr (by decide)
  · exact (c10_null_string_normalization Stage.localities "\u00A0").1.mpr (by decide)

end EbirdDb
